import Mathlib

/-!
Shallow embedding of the `emma2.msm.analysis.api` dispatch facade and of the
dense/sparse backend modules it imports.  The facade (`api.py`) is translated
statement by statement; the backend modules (`dense.assessment`,
`sparse.assessment`, `dense.decomposition`, `sparse.decomposition`,
`dense.expectations`, `sparse.expectations`) are part of the repository but
not among the given sources, so each of their operations is modelled from the
specification and marked as such in its doc comment.

Matrices are embedded over `ℚ` (exact rationals stand in for IEEE floats; the
spec's "within floating tolerance" becomes exact arithmetic with an explicit
tolerance parameter).  A dense matrix is a row-major list of rows; a sparse
matrix stores, per row, the list of (column, value) pairs.  A Python value
flowing out of an api function is either a returned `PyVal` or a raised
`PyError`, captured by `Except PyError PyVal`; a Python function body that
falls through without `return` returns `PyVal.none`.
-/

abbrev Vec := List ℚ

abbrev Mat := List (List ℚ)

structure SparseMat where
  n : ℕ
  rows : List (List (ℕ × ℚ))
deriving DecidableEq

inductive PyObj where
  | dense (m : Mat)
  | sparse (s : SparseMat)
  | other
deriving DecidableEq

inductive PyVal where
  | bool (b : Bool)
  | none
  | vec (v : Vec)
  | mat (m : Mat)
  | spmat (s : SparseMat)
  | tptObj (T : PyObj) (A B : List ℕ)
deriving DecidableEq

inductive PyError where
  | typeError (msg : String)
  | valueError (msg : String)
  | notImplementedError (msg : String)
deriving DecidableEq

/-- Entry `T[i][j]` of a dense matrix, `0` out of range. -/
def getEntry (T : Mat) (i j : ℕ) : ℚ :=
  (T.getD i []).getD j 0

/-- Value at column `j` of one stored sparse row: the sum of all stored values
with that column index (scipy sums duplicate entries). -/
def rowEntry (r : List (ℕ × ℚ)) (j : ℕ) : ℚ :=
  ((r.filter (fun e => e.1 == j)).map (fun e => e.2)).sum

/-- Densification of a sparse matrix. -/
def SparseMat.toDense (s : SparseMat) : Mat :=
  s.rows.map (fun r => (List.range s.n).map (fun j => rowEntry r j))

/-- The module-level `_type_not_supported` TypeError object of `api.py`. -/
def type_not_supported : PyError :=
  PyError.typeError "given matrix is not a numpy.ndarray or a scipy.sparse matrix."

/-- Modelled from the spec: `dense.assessment.is_transition_matrix` is imported
by the facade but its module is not among the sources.  The spec: true iff
every row sums to 1 within `tol` and every entry is at least `-tol`. -/
def dense_assessment_is_transition_matrix (T : Mat) (tol : ℚ) : Bool :=
  T.all (fun row => decide (|row.sum - 1| ≤ tol) && row.all (fun x => decide (-tol ≤ x)))

/-- Modelled from the spec: `sparse.assessment.is_transition_matrix` is imported
by the facade but its module is not among the sources.  Same predicate as the
dense backend, evaluated on the stored entries of each row. -/
def sparse_assessment_is_transition_matrix (s : SparseMat) (tol : ℚ) : Bool :=
  s.rows.all (fun r =>
    decide (|(r.map (fun e => e.2)).sum - 1| ≤ tol) && r.all (fun e => decide (-tol ≤ e.2)))

/-- Facade `is_transition_matrix(T, tol=1e-15)` (api.py lines 22-45). -/
def is_transition_matrix (T : PyObj) (tol : ℚ) : Except PyError PyVal :=
  match T with
  | .sparse s => .ok (.bool (sparse_assessment_is_transition_matrix s tol))
  | .dense m => .ok (.bool (dense_assessment_is_transition_matrix m tol))
  | .other => .error (PyError.typeError "T is not a numpy.ndarray or a scipy.sparse matrix.")

/-- Modelled from the spec: `dense.assessment.is_rate_matrix` is imported by
the facade but its module is not among the sources.  The spec: true iff
off-diagonal entries are ≥ `-tol` and each row sums to 0 within `tol`. -/
def dense_assessment_is_rate_matrix (K : Mat) (tol : ℚ) : Bool :=
  (List.range K.length).all (fun i =>
    decide (|(K.getD i []).sum| ≤ tol) &&
      (List.range (K.getD i []).length).all (fun j =>
        (i == j) || decide (-tol ≤ getEntry K i j)))

/-- Modelled from the spec: `sparse.assessment.is_rate_matrix` is imported by
the facade but its module is not among the sources.  The predicate is
representation independent, so the sparse backend checks the densification. -/
def sparse_assessment_is_rate_matrix (s : SparseMat) (tol : ℚ) : Bool :=
  dense_assessment_is_rate_matrix s.toDense tol

/-- Facade `is_rate_matrix(K, tol=1e-15)` (api.py lines 48-68). -/
def is_rate_matrix (K : PyObj) (tol : ℚ) : Except PyError PyVal :=
  match K with
  | .sparse s => .ok (.bool (sparse_assessment_is_rate_matrix s tol))
  | .dense m => .ok (.bool (dense_assessment_is_rate_matrix m tol))
  | .other => .error type_not_supported

/-- Edge `i → j` of the graph induced by above-tolerance entries of `m`. -/
def adjAboveTol (m : Mat) (tol : ℚ) (i j : ℕ) : Bool :=
  decide (tol < |getEntry m i j|)

/-- One closure step of reachability: a state already in `S` or with an
in-edge from `S`. -/
def reachExpand (m : Mat) (tol : ℚ) (S : List ℕ) : List ℕ :=
  (List.range m.length).filter (fun j => S.contains j || S.any (fun i => adjAboveTol m tol i j))

/-- `k`-fold iteration of the reachability closure step. -/
def reachIterate (m : Mat) (tol : ℚ) : ℕ → List ℕ → List ℕ
  | 0, S => S
  | k + 1, S => reachIterate m tol k (reachExpand m tol S)

/-- States reachable from `i` (closure after `m.length` expansion steps). -/
def reachSet (m : Mat) (tol : ℚ) (i : ℕ) : List ℕ :=
  reachIterate m tol m.length [i]

/-- Strong connectivity of the above-tolerance graph of `m`. -/
def stronglyConnectedB (m : Mat) (tol : ℚ) : Bool :=
  (List.range m.length).all (fun i =>
    (List.range m.length).all (fun j => (reachSet m tol i).contains j))

/-- One exact walk step: states with an in-edge from `S`. -/
def walkStep (m : Mat) (tol : ℚ) (S : List ℕ) : List ℕ :=
  (List.range m.length).filter (fun j => S.any (fun i => adjAboveTol m tol i j))

/-- `k`-fold iteration of the exact walk step. -/
def walkIterate (m : Mat) (tol : ℚ) : ℕ → List ℕ → List ℕ
  | 0, S => S
  | k + 1, S => walkIterate m tol k (walkStep m tol S)

/-- Some state has a closed walk of length exactly `k`. -/
def hasClosedWalk (m : Mat) (tol : ℚ) (k : ℕ) : Bool :=
  (List.range m.length).any (fun i => (walkIterate m tol k [i]).contains i)

/-- Aperiodicity: the gcd of the realised cycle lengths (closed-walk lengths up
to the number of states, which generate the same gcd as all cycle lengths)
is 1. -/
def aperiodicB (m : Mat) (tol : ℚ) : Bool :=
  (((List.range m.length).map (fun k => k + 1)).filter
    (fun k => hasClosedWalk m tol k)).foldl Nat.gcd 0 == 1

/-- Modelled from the spec: `sparse.assessment.is_ergodic` is imported by the
facade but its module is not among the sources.  The spec: true iff the
directed graph induced by above-tolerance entries is strongly connected and
the chain is aperiodic; a dense argument is converted internally, so the model
takes the dense form of the matrix. -/
def sparse_assessment_is_ergodic (m : Mat) (tol : ℚ) : Bool :=
  stronglyConnectedB m tol && aperiodicB m tol

/-- Facade `is_ergodic(T, tol=1e-15)` (api.py lines 72-92).  The source calls
the sparse backend but has no `return` statement, so the Python function
returns `None` for every dense or sparse input. -/
def is_ergodic (T : PyObj) (tol : ℚ) : Except PyError PyVal :=
  match T with
  | .dense m =>
      let _ := sparse_assessment_is_ergodic m tol
      .ok .none
  | .sparse s =>
      let _ := sparse_assessment_is_ergodic s.toDense tol
      .ok .none
  | .other => .error type_not_supported

/-- Modelled from the spec: `dense.assessment.is_reversible` /
`sparse.assessment.is_reversible` are imported by the facade but their modules
are not among the sources.  The spec: true iff detailed balance
`mu[i]*T[i,j] ≈ mu[j]*T[j,i]` holds within `tol` for all `i, j`.  Only the
case of a caller-supplied `mu` is modelled; the `mu=None` path would invoke
the external eigensolver. -/
def dense_assessment_is_reversible (T : Mat) (mu : Vec) (tol : ℚ) : Bool :=
  (List.range T.length).all (fun i =>
    (List.range T.length).all (fun j =>
      decide (|mu.getD i 0 * getEntry T i j - mu.getD j 0 * getEntry T j i| ≤ tol)))

/-- Facade `is_reversible(T, mu, tol=1e-15)` (api.py lines 96-117).  The
source calls the backend but has no `return` statement, so the Python function
returns `None` for every dense or sparse input. -/
def is_reversible (T : PyObj) (mu : Vec) (tol : ℚ) : Except PyError PyVal :=
  match T with
  | .sparse s =>
      let _ := dense_assessment_is_reversible s.toDense mu tol
      .ok .none
  | .dense m =>
      let _ := dense_assessment_is_reversible m mu tol
      .ok .none
  | .other => .error type_not_supported

/-- Absolute value then renormalisation to unit sum. -/
def normalizeAbs (v : Vec) : Vec :=
  let a := v.map (fun x => |x|)
  a.map (fun x => x / a.sum)

/-- Modelled from the spec: `dense.decomposition.mu` is imported by the facade
but its module is not among the sources.  The spec: the left eigenvector for
eigenvalue 1 — produced by the external eigensolver and passed here as `v` —
with the absolute value taken and then renormalised to sum 1. -/
def dense_decomposition_mu (v : Vec) : Vec :=
  normalizeAbs v

/-- Modelled from the spec: `sparse.decomposition.mu` is imported by the
facade but its module is not among the sources; same contract as the dense
backend. -/
def sparse_decomposition_mu (v : Vec) : Vec :=
  normalizeAbs v

/-- Facade `stationary_distribution(T)` (api.py lines 125-147).  The
eigenvalue-1 left eigenvector delivered by the external eigensolver inside the
backend is made explicit as the parameter `v`. -/
def stationary_distribution (T : PyObj) (v : Vec) : Except PyError PyVal :=
  match T with
  | .sparse _ => .ok (.vec (sparse_decomposition_mu v))
  | .dense _ => .ok (.vec (dense_decomposition_mu v))
  | .other => .error type_not_supported

/-- Left multiplication `v · T` of a row vector by a dense matrix. -/
def vecMul (v : Vec) (T : Mat) : Vec :=
  (List.range T.length).map (fun j =>
    ((List.range v.length).map (fun i => v.getD i 0 * getEntry T i j)).sum)

/-- Irreducibility: strong connectivity of the graph of nonzero entries. -/
def irreducibleMat (m : Mat) : Bool :=
  stronglyConnectedB m 0

/-- The all-zero dense `n × n` matrix. -/
def zeroMat (n : ℕ) : Mat :=
  List.replicate n (List.replicate n 0)

/-- Entrywise sum of two dense matrices. -/
def matAdd (A B : Mat) : Mat :=
  List.zipWith (fun r s => List.zipWith (fun a b => a + b) r s) A B

/-- `diag(p) · T` for a dense matrix: row `i` of `T` scaled by `p[i]`. -/
def diagMul (p : Vec) (T : Mat) : Mat :=
  (List.range T.length).map (fun i => (T.getD i []).map (fun x => p.getD i 0 * x))

/-- Modelled from the spec: `dense.expectations.expected_counts` is imported by
the facade but its module is not among the sources.  The spec:
`EC = Σ_{k<N} diag(p0 · T^k) · T`, computed by iterating
`EC += diag(p_k) · T; p_{k+1} = p_k · T` rather than materialising matrix
powers; `N = 0` yields the all-zero matrix. -/
def dense_expectations_expected_counts (p0 : Vec) (T : Mat) (N : ℕ) : Mat :=
  ((fun st : Vec × Mat => (vecMul st.1 T, matAdd st.2 (diagMul st.1 T)))^[N]
    (p0, zeroMat T.length)).2

/-- `p · S` for a sparse matrix. -/
def svecMul (p : Vec) (s : SparseMat) : Vec :=
  (List.range s.n).map (fun j => (List.zipWith (fun pi r => pi * rowEntry r j) p s.rows).sum)

/-- `diag(p) ·` on sparse rows: stored values of row `i` scaled by `p[i]`. -/
def sdiagMul (p : Vec) (rows : List (List (ℕ × ℚ))) : List (List (ℕ × ℚ)) :=
  List.zipWith (fun pi r => r.map (fun e => (e.1, pi * e.2))) p rows

/-- Entrywise sum of sparse row lists (concatenation of stored entries). -/
def srowsAdd (a b : List (List (ℕ × ℚ))) : List (List (ℕ × ℚ)) :=
  List.zipWith (fun r t => r ++ t) a b

/-- Modelled from the spec: `sparse.expectations.expected_counts` is imported
by the facade but its module is not among the sources.  Same recurrence as the
dense backend, preserving sparse storage. -/
def sparse_expectations_expected_counts (p0 : Vec) (s : SparseMat) (N : ℕ) : SparseMat :=
  ⟨s.n,
    ((fun st : Vec × List (List (ℕ × ℚ)) =>
        (svecMul st.1 s, srowsAdd st.2 (sdiagMul st.1 s.rows)))^[N]
      (p0, List.replicate s.n [])).2⟩

/-- Facade `expected_counts(p0, T, N)` (api.py lines 346-375).  In the source
the else branch is the bare expression `_type_not_supported` without `raise`,
so for an unsupported type the Python function falls through and returns
`None`. -/
def expected_counts (p0 : Vec) (T : PyObj) (N : ℕ) : Except PyError PyVal :=
  match T with
  | .sparse s => .ok (.spmat (sparse_expectations_expected_counts p0 s N))
  | .dense m => .ok (.mat (dense_expectations_expected_counts p0 m N))
  | .other =>
      let _ := type_not_supported
      .ok .none

/-- Facade `expected_counts_stationary(P, N, mu=None)` (api.py lines 378-408).
Both the sparse and the dense branch raise a TypeError stub; the else branch
is again the bare expression `_type_not_supported`, so an unsupported type
yields `None`. -/
def expected_counts_stationary (P : PyObj) (N : ℕ) (mu : Option Vec) : Except PyError PyVal :=
  match P with
  | .sparse _ => .error (PyError.typeError "Not implmented for sparse matrices")
  | .dense _ => .error (PyError.typeError "Not implmented for dense matrices")
  | .other =>
      let _ := type_not_supported
      .ok .none

/-- The shared default tolerance `1e-15` of the api signatures. -/
def defaultTol : ℚ := 1 / 10 ^ 15

/-- `is_transition_matrix(T)` called without the tolerance argument. -/
def is_transition_matrix_default (T : PyObj) : Except PyError PyVal :=
  is_transition_matrix T defaultTol

/-- `is_rate_matrix(K)` called without the tolerance argument. -/
def is_rate_matrix_default (K : PyObj) : Except PyError PyVal :=
  is_rate_matrix K defaultTol

/-- `is_ergodic(T)` called without the tolerance argument. -/
def is_ergodic_default (T : PyObj) : Except PyError PyVal :=
  is_ergodic T defaultTol

/-- `is_reversible(T, mu)` called without the tolerance argument. -/
def is_reversible_default (T : PyObj) (mu : Vec) : Except PyError PyVal :=
  is_reversible T mu defaultTol

/-- Facade `tpt(T, A, B)` (api.py lines 543-570): validity check with the
default tolerance first, then the external stallone flux engine (availability
made explicit as a parameter; the constructed flux object is opaque). -/
def tpt (stallone_available : Bool) (T : PyObj) (A B : List ℕ) : Except PyError PyVal :=
  match is_transition_matrix_default T with
  | .error e => .error e
  | .ok v =>
      if v = PyVal.bool true then
        if stallone_available then .ok (.tptObj T A B)
        else .error (.notImplementedError "currently only available in stallone")
      else .error (.valueError "given matrix T is not a transition matrix")

/-- C2: the spec claims `expected_counts_stationary(P, N, mu)` returns the
closed form `N * diag(mu) * P`, in particular on the literal example
`P = [[0.9, 0.1], [0.2, 0.8]]`, `mu = [2/3, 1/3]`, `N = 10`; the code instead
raises `TypeError("Not implmented for dense matrices")` there, contradicting
its own docstring. -/
theorem expected_counts_stationary_raises_on_literal_dense_example :
    expected_counts_stationary (.dense [[(9 : ℚ)/10, 1/10], [2/10, 8/10]]) 10
        (some [(2 : ℚ)/3, 1/3]) =
      .error (PyError.typeError "Not implmented for dense matrices") := rfl

/-- C3: the spec claims `is_ergodic` returns a boolean (False on a matrix with
two disjoint absorbing components, True on a fully connected aperiodic chain);
the facade drops the backend result and has no return statement, so it returns
`None` on both of those inputs. -/
theorem is_ergodic_returns_none_on_dense_inputs :
    is_ergodic (.dense [[(1 : ℚ), 0], [0, 1]]) (1 / 10 ^ 15) = .ok .none ∧
    is_ergodic (.dense [[(1 : ℚ)/2, 1/2], [1/2, 1/2]]) (1 / 10 ^ 15) = .ok .none :=
  ⟨rfl, rfl⟩

/-- C4: the spec claims `is_reversible(T, mu, tol)` returns True iff detailed
balance holds; on a matrix and distribution satisfying detailed balance (the
backend predicate evaluates to true) the facade still returns `None`, because
its body has no return statement. -/
theorem is_reversible_returns_none_on_detailed_balance_input :
    is_reversible (.dense [[(0 : ℚ), 1], [1, 0]]) [(1 : ℚ)/2, 1/2] (1 / 10 ^ 15) =
        .ok .none ∧
    dense_assessment_is_reversible [[(0 : ℚ), 1], [1, 0]] [(1 : ℚ)/2, 1/2]
        (1 / 10 ^ 15) = true :=
  ⟨rfl, by norm_num [dense_assessment_is_reversible, getEntry, List.range_succ]⟩

/-- C7: the spec claims every dispatch-facade operation raises the
`UnsupportedMatrixType` TypeError on an input that is neither dense nor
sparse; `expected_counts` and `expected_counts_stationary` instead evaluate
`_type_not_supported` without `raise` and return `None`. -/
theorem expected_counts_type_dispatch_returns_none_on_unsupported
    (p0 : Vec) (N : ℕ) (mu : Option Vec) :
    expected_counts p0 PyObj.other N = .ok .none ∧
    expected_counts_stationary PyObj.other N mu = .ok .none :=
  ⟨rfl, rfl⟩

/-- C8: calling any Validator operation without the tolerance argument gives
the same result as calling it with `tol = 1e-15`, for every matrix input (and
every supplied `mu` for `is_reversible`). -/
theorem validator_default_tolerance_eq_explicit (T K R : PyObj) (mu : Vec) :
    is_transition_matrix_default T = is_transition_matrix T (1 / 10 ^ 15) ∧
    is_rate_matrix_default K = is_rate_matrix K (1 / 10 ^ 15) ∧
    is_ergodic_default R = is_ergodic R (1 / 10 ^ 15) ∧
    is_reversible_default R mu = is_reversible R mu (1 / 10 ^ 15) :=
  ⟨rfl, rfl, rfl, rfl⟩

/-- C9: for every dense and for every sparse matrix, and all `N` and `mu`,
`expected_counts_stationary` raises a TypeError and never returns a value. -/
theorem expected_counts_stationary_type_error_all_matrices
    (m : Mat) (s : SparseMat) (N : ℕ) (mu : Option Vec) :
    (∃ msg, expected_counts_stationary (.dense m) N mu = .error (PyError.typeError msg)) ∧
    (∃ msg, expected_counts_stationary (.sparse s) N mu = .error (PyError.typeError msg)) :=
  ⟨⟨_, rfl⟩, ⟨_, rfl⟩⟩

/-- C6: for every starting vector and every dense or sparse transition matrix,
`expected_counts(p0, T, 0)` is the all-zero matrix: the dense backend returns
the zero dense matrix, and the sparse backend returns a sparse matrix with no
stored entries, whose densification is the zero matrix. -/
theorem expected_counts_zero_steps_zero_matrix (p0 : Vec) (m : Mat) (s : SparseMat) :
    expected_counts p0 (.dense m) 0 = .ok (.mat (zeroMat m.length)) ∧
    expected_counts p0 (.sparse s) 0 = .ok (.spmat ⟨s.n, List.replicate s.n []⟩) ∧
    SparseMat.toDense ⟨s.n, List.replicate s.n []⟩ = zeroMat s.n := by
  refine ⟨rfl, rfl, ?_⟩
  simp [SparseMat.toDense, zeroMat, rowEntry, List.map_replicate]

/-- C10: whenever `is_transition_matrix` with the default tolerance returns
`False` on `T`, `tpt(T, A, B)` raises the ValueError
"given matrix T is not a transition matrix" for all state sets `A`, `B`,
without invoking the external flux engine (the outcome is the same whether or
not stallone is available, and is never a flux object). -/
theorem tpt_value_error_on_invalid_transition_matrix
    (T : PyObj) (h : is_transition_matrix_default T = .ok (.bool false))
    (A B : List ℕ) (st : Bool) :
    tpt st T A B = .error (PyError.valueError "given matrix T is not a transition matrix") := by
  unfold tpt
  rw [h]
  simp

/-- Concrete check for the `tpt` precondition theorem: the matrix
`[[1, 1], [0, 1]]` fails `is_transition_matrix` at the default tolerance, and
`tpt` on it yields the ValueError for both flux-engine availabilities. -/
theorem tpt_value_error_on_invalid_transition_matrix_witness :
    is_transition_matrix_default (PyObj.dense [[(1 : ℚ), 1], [0, 1]]) = .ok (.bool false) ∧
    tpt true (PyObj.dense [[(1 : ℚ), 1], [0, 1]]) [0] [1] =
        .error (PyError.valueError "given matrix T is not a transition matrix") ∧
    tpt false (PyObj.dense [[(1 : ℚ), 1], [0, 1]]) [0] [1] =
        .error (PyError.valueError "given matrix T is not a transition matrix") := by
  have h : is_transition_matrix_default (PyObj.dense [[(1 : ℚ), 1], [0, 1]]) = .ok (.bool false) := by
    norm_num [is_transition_matrix_default, is_transition_matrix,
      dense_assessment_is_transition_matrix, defaultTol]
  exact ⟨h, tpt_value_error_on_invalid_transition_matrix _ h [0] [1] true,
    tpt_value_error_on_invalid_transition_matrix _ h [0] [1] false⟩

/-- `getD` at default `0` commutes with dividing every element by a constant. -/
theorem list_getD_map_div (l : List ℚ) (c : ℚ) :
    ∀ i, (l.map (fun x => x / c)).getD i 0 = l.getD i 0 / c := by
  induction l with
  | nil => intro i; simp
  | cons a l ih =>
      intro i
      cases i with
      | zero => rfl
      | succ k => simpa using ih k

/-- The sum of a list divided elementwise by a constant is the divided sum. -/
theorem list_sum_map_div (l : List ℚ) (c : ℚ) :
    (l.map (fun x => x / c)).sum = l.sum / c := by
  induction l with
  | nil => simp
  | cons a l ih => simp [ih, add_div]

/-- Left multiplication by a dense matrix commutes with elementwise division by
a constant. -/
theorem vecMul_map_div (v : Vec) (T : Mat) (c : ℚ) :
    vecMul (v.map (fun x => x / c)) T = (vecMul v T).map (fun x => x / c) := by
  unfold vecMul
  simp only [List.length_map]
  rw [List.map_map]
  refine List.map_congr_left ?_
  intro j _
  simp only [Function.comp]
  rw [← list_sum_map_div, List.map_map]
  refine congrArg List.sum (List.map_congr_left ?_)
  intro i _
  simp only [Function.comp]
  rw [list_getD_map_div]
  ring

/-- C1: for every irreducible transition matrix, dense or sparse,
`stationary_distribution` returns a vector `mu` summing to 1 that is a fixed
point of left multiplication by the matrix.  The external eigensolver inside
the backend is captured by its contract: it delivers a componentwise
non-negative left eigenvector `v` of eigenvalue 1 with nonzero sum, which the
backend normalises. -/
theorem stationary_distribution_sums_to_one_and_fixed_point
    (T : Mat) (M : PyObj) (v : Vec)
    (hM : M = PyObj.dense T ∨ ∃ s : SparseMat, M = PyObj.sparse s ∧ s.toDense = T)
    (hirr : irreducibleMat T = true)
    (hfix : vecMul v T = v)
    (hpos : ∀ x ∈ v, 0 ≤ x)
    (hsum : v.sum ≠ 0) :
    ∃ mu : Vec, stationary_distribution M v = .ok (.vec mu) ∧
      mu.sum = 1 ∧ vecMul mu T = mu := by
  have habs : v.map (fun x => |x|) = v := by
    have h := List.map_congr_left (l := v) (f := fun x => |x|) (g := fun x => x)
      (fun a ha => abs_of_nonneg (hpos a ha))
    simpa using h
  have hmu : normalizeAbs v = v.map (fun x => x / v.sum) := by
    simp [normalizeAbs, habs]
  refine ⟨normalizeAbs v, ?_, ?_, ?_⟩
  · rcases hM with h | ⟨s, h, _⟩ <;> subst h <;> rfl
  · rw [hmu, list_sum_map_div, div_self hsum]
  · rw [hmu, vecMul_map_div, hfix]

/-- Concrete check for the stationary-distribution theorem: the irreducible
two-state chain `[[0, 1], [1, 0]]` with eigensolver output `[1, 1]`. -/
theorem stationary_distribution_sums_to_one_and_fixed_point_witness :
    irreducibleMat [[(0 : ℚ), 1], [1, 0]] = true ∧
    vecMul [(1 : ℚ), 1] [[(0 : ℚ), 1], [1, 0]] = [(1 : ℚ), 1] ∧
    (∃ mu : Vec,
      stationary_distribution (PyObj.dense [[(0 : ℚ), 1], [1, 0]]) [(1 : ℚ), 1] =
          .ok (.vec mu) ∧
      mu.sum = 1 ∧ vecMul mu [[(0 : ℚ), 1], [1, 0]] = mu) := by
  have h1 : irreducibleMat [[(0 : ℚ), 1], [1, 0]] = true := by
    norm_num [irreducibleMat, stronglyConnectedB, reachSet, reachIterate, reachExpand,
      adjAboveTol, getEntry, List.range_succ]
  have h2 : vecMul [(1 : ℚ), 1] [[(0 : ℚ), 1], [1, 0]] = [(1 : ℚ), 1] := by
    norm_num [vecMul, getEntry, List.range_succ]
  refine ⟨h1, h2, stationary_distribution_sums_to_one_and_fixed_point _ _ _ (Or.inl rfl) h1 h2
    ?_ ?_⟩
  · intro x hx
    simp only [List.mem_cons, List.not_mem_nil, or_false] at hx
    rcases hx with h | h <;> rw [h] <;> norm_num
  · norm_num

/-- Unfolding `rowEntry` over a cons cell. -/
theorem rowEntry_cons (c : ℕ) (v : ℚ) (r : List (ℕ × ℚ)) (j : ℕ) :
    rowEntry ((c, v) :: r) j = (if c = j then v else 0) + rowEntry r j := by
  by_cases h : c = j <;> simp [rowEntry, List.filter_cons, h]

/-- A sum of pointwise sums splits. -/
theorem emma_sum_map_add {α : Type} (l : List α) (f g : α → ℚ) :
    (l.map (fun x => f x + g x)).sum = (l.map f).sum + (l.map g).sum := by
  induction l with
  | nil => simp
  | cons a l ih =>
      simp only [List.map_cons, List.sum_cons, ih]
      ring

/-- Summing an indicator of one column over `range n` picks out the value. -/
theorem emma_sum_range_ite (n c : ℕ) (v : ℚ) (h : c < n) :
    ((List.range n).map (fun j => if c = j then v else 0)).sum = v := by
  induction n with
  | zero => exact absurd h (Nat.not_lt_zero c)
  | succ n ih =>
      rw [List.range_succ, List.map_append, List.sum_append]
      by_cases hc : c = n
      · subst hc
        have hzero : ((List.range c).map (fun j => if c = j then v else 0)).sum = 0 := by
          apply List.sum_eq_zero
          intro x hx
          simp only [List.mem_map, List.mem_range] at hx
          obtain ⟨j, hj, hxe⟩ := hx
          rw [← hxe, if_neg (by omega)]
        simp [hzero]
      · have hcn : c < n := by omega
        rw [ih hcn]
        simp [hc]

/-- The dense row sum of a sparse row equals the sum of its stored values,
provided all stored columns are in range. -/
theorem emma_sum_range_rowEntry (n : ℕ) (r : List (ℕ × ℚ)) (h : ∀ e ∈ r, e.1 < n) :
    ((List.range n).map (fun j => rowEntry r j)).sum = (r.map (fun e => e.2)).sum := by
  induction r with
  | nil =>
      simp only [List.map_nil, List.sum_nil]
      apply List.sum_eq_zero
      intro x hx
      simp only [List.mem_map] at hx
      obtain ⟨j, _, hxe⟩ := hx
      rw [← hxe]
      rfl
  | cons e r ih =>
      obtain ⟨c, v⟩ := e
      have h1 : ∀ e ∈ r, e.1 < n := fun e he => h e (List.mem_cons_of_mem _ he)
      have hc : c < n := h (c, v) (List.mem_cons_self _ _)
      calc ((List.range n).map (fun j => rowEntry ((c, v) :: r) j)).sum
          = ((List.range n).map (fun j => (if c = j then v else 0) + rowEntry r j)).sum := by
            exact congrArg List.sum (List.map_congr_left (fun j _ => rowEntry_cons c v r j))
        _ = ((List.range n).map (fun j => if c = j then v else 0)).sum
              + ((List.range n).map (fun j => rowEntry r j)).sum :=
            emma_sum_map_add _ _ _
        _ = v + (r.map (fun e => e.2)).sum := by rw [emma_sum_range_ite n c v hc, ih h1]
        _ = (((c, v) :: r).map (fun e => e.2)).sum := by simp

/-- A column absent from the stored entries densifies to `0`. -/
theorem rowEntry_eq_zero_of_not_mem (r : List (ℕ × ℚ)) :
    ∀ j, j ∉ r.map Prod.fst → rowEntry r j = 0 := by
  induction r with
  | nil => intro j _; rfl
  | cons e r ih =>
      intro j h
      obtain ⟨c, v⟩ := e
      simp only [List.map_cons, List.mem_cons, not_or] at h
      rw [rowEntry_cons, if_neg (fun hc => h.1 hc.symm), ih j h.2, add_zero]

/-- With duplicate-free column indices, a stored entry densifies to its own
value. -/
theorem rowEntry_eq_of_mem (r : List (ℕ × ℚ)) :
    ∀ (c : ℕ) (v : ℚ), (r.map Prod.fst).Nodup → (c, v) ∈ r → rowEntry r c = v := by
  induction r with
  | nil => intro c v _ hm; cases hm
  | cons e r ih =>
      intro c v hnd hm
      obtain ⟨a, b⟩ := e
      simp only [List.map_cons, List.nodup_cons] at hnd
      rcases List.mem_cons.mp hm with he | he
      · injection he with h1 h2
        subst h1
        subst h2
        rw [rowEntry_cons, if_pos rfl, rowEntry_eq_zero_of_not_mem r c hnd.1, add_zero]
      · have hcr : c ∈ r.map Prod.fst := List.mem_map_of_mem Prod.fst he
        have hne : ¬a = c := fun hac => hnd.1 (by rw [hac]; exact hcr)
        rw [rowEntry_cons, if_neg hne, ih c v hnd.2 he, zero_add]

/-- Entrywise non-negativity of the stored values agrees with entrywise
non-negativity of the densified row. -/
theorem emma_row_nonneg_iff (n : ℕ) (r : List (ℕ × ℚ)) (tol : ℚ) (htol : 0 ≤ tol)
    (hnd : (r.map Prod.fst).Nodup) (hcol : ∀ e ∈ r, e.1 < n) :
    ((∀ e ∈ r, -tol ≤ e.2) ↔ (∀ j ∈ List.range n, -tol ≤ rowEntry r j)) := by
  constructor
  · intro hall j _
    by_cases hjm : j ∈ r.map Prod.fst
    · obtain ⟨e, he, hfst⟩ := List.mem_map.mp hjm
      obtain ⟨c, v⟩ := e
      cases hfst
      rw [rowEntry_eq_of_mem r c v hnd he]
      exact hall (c, v) he
    · rw [rowEntry_eq_zero_of_not_mem r j hjm]
      linarith
  · intro hall e he
    obtain ⟨c, v⟩ := e
    have h := hall c (List.mem_range.mpr (hcol (c, v) he))
    rwa [rowEntry_eq_of_mem r c v hnd he] at h

/-- `List.all` of a predicate agreeing pointwise with a predicate after a map
coincides with `List.all` over the mapped list. -/
theorem emma_all_map_congr {α β : Type} (l : List α) (f : α → Bool) (d : α → β) (q : β → Bool)
    (h : ∀ x ∈ l, f x = q (d x)) : l.all f = (l.map d).all q := by
  induction l with
  | nil => rfl
  | cons a l ih =>
      simp only [List.all_cons, List.map_cons]
      rw [h a (List.mem_cons_self a l), ih (fun x hx => h x (List.mem_cons_of_mem a hx))]

/-- Two booleans agreeing as propositions are equal. -/
theorem bool_eq_of_iff {a b : Bool} (h : a = true ↔ b = true) : a = b := by
  cases a <;> cases b <;> simp_all

/-- The per-row transition check of the sparse backend coincides with the
dense backend check on the densified row. -/
theorem emma_row_check_eq (n : ℕ) (r : List (ℕ × ℚ)) (tol : ℚ) (htol : 0 ≤ tol)
    (hnd : (r.map Prod.fst).Nodup) (hcol : ∀ e ∈ r, e.1 < n) :
    (decide (|(r.map (fun e => e.2)).sum - 1| ≤ tol) && r.all (fun e => decide (-tol ≤ e.2)))
      = (decide (|((List.range n).map (fun j => rowEntry r j)).sum - 1| ≤ tol)
          && ((List.range n).map (fun j => rowEntry r j)).all (fun x => decide (-tol ≤ x))) := by
  rw [emma_sum_range_rowEntry n r hcol]
  congr 1
  apply bool_eq_of_iff
  rw [List.all_eq_true, List.all_eq_true]
  constructor
  · intro h x hx
    simp only [List.mem_map] at hx
    obtain ⟨j, hj, hxe⟩ := hx
    subst hxe
    exact decide_eq_true ((emma_row_nonneg_iff n r tol htol hnd hcol).mp
      (fun e he => of_decide_eq_true (h e he)) j hj)
  · intro h e he
    exact decide_eq_true ((emma_row_nonneg_iff n r tol htol hnd hcol).mpr
      (fun j hj => of_decide_eq_true
        (h (rowEntry r j) (List.mem_map_of_mem (fun j => rowEntry r j) hj))) e he)

/-- The mathematical transition-matrix property the spec states: every row
sums to 1 within `tol` and every entry is at least `-tol`. -/
def TransMatSpec (T : Mat) (tol : ℚ) : Prop :=
  ∀ row ∈ T, |row.sum - 1| ≤ tol ∧ ∀ x ∈ row, -tol ≤ x

/-- Well-formedness of a sparse matrix: per row, duplicate-free column indices
that are all in range. -/
def SparseWF (s : SparseMat) : Prop :=
  ∀ r ∈ s.rows, (r.map Prod.fst).Nodup ∧ ∀ e ∈ r, e.1 < s.n

/-- C5: `is_transition_matrix(T, tol)` returns True iff every row of `T` sums
to 1 within `tol` and every entry is at least `-tol`, and the sparse backend
agrees with the dense backend on the same logical matrix expressed in either
representation (for a well-formed sparse form and non-negative tolerance). -/
theorem is_transition_matrix_iff_and_backend_agreement
    (T : Mat) (s : SparseMat) (tol : ℚ)
    (htol : 0 ≤ tol) (hwf : SparseWF s) (hTd : s.toDense = T) :
    (is_transition_matrix (.dense T) tol = .ok (.bool true) ↔ TransMatSpec T tol) ∧
    is_transition_matrix (.sparse s) tol = is_transition_matrix (.dense T) tol := by
  constructor
  · simp only [is_transition_matrix, Except.ok.injEq, PyVal.bool.injEq,
      dense_assessment_is_transition_matrix, List.all_eq_true, Bool.and_eq_true,
      decide_eq_true_eq, TransMatSpec]
  · subst hTd
    have hb : sparse_assessment_is_transition_matrix s tol
        = dense_assessment_is_transition_matrix s.toDense tol := by
      unfold sparse_assessment_is_transition_matrix dense_assessment_is_transition_matrix
        SparseMat.toDense
      apply emma_all_map_congr
      intro r hr
      obtain ⟨hnd, hcol⟩ := hwf r hr
      exact emma_row_check_eq s.n r tol htol hnd hcol
    simp only [is_transition_matrix, hb]

/-- Concrete check for the transition-matrix theorem: the logical matrix
`[[0, 1], [1, 0]]` in dense form and in well-formed sparse form, at
tolerance 0. -/
theorem is_transition_matrix_iff_and_backend_agreement_witness :
    (0 : ℚ) ≤ 0 ∧ SparseWF ⟨2, [[(1, 1)], [(0, 1)]]⟩ ∧
    ((is_transition_matrix (.dense [[(0 : ℚ), 1], [1, 0]]) 0 = .ok (.bool true) ↔
        TransMatSpec [[(0 : ℚ), 1], [1, 0]] 0) ∧
      is_transition_matrix (.sparse ⟨2, [[(1, 1)], [(0, 1)]]⟩) 0 =
        is_transition_matrix (.dense [[(0 : ℚ), 1], [1, 0]]) 0) := by
  have hwf : SparseWF ⟨2, [[(1, 1)], [(0, 1)]]⟩ := by
    intro r hr
    simp only [List.mem_cons, List.not_mem_nil, or_false] at hr
    rcases hr with h | h <;> subst h <;>
      exact ⟨by simp, by
        intro e he
        simp only [List.mem_cons, List.not_mem_nil, or_false] at he
        subst he
        norm_num⟩
  have hTd : SparseMat.toDense ⟨2, [[(1, 1)], [(0, 1)]]⟩ = [[(0 : ℚ), 1], [1, 0]] := by
    norm_num [SparseMat.toDense, rowEntry, List.range_succ]
  exact ⟨le_refl 0, hwf,
    is_transition_matrix_iff_and_backend_agreement [[(0 : ℚ), 1], [1, 0]]
      ⟨2, [[(1, 1)], [(0, 1)]]⟩ 0 (le_refl 0) hwf hTd⟩
